import Mathlib

/-!
Verification development for the marketplace / movie-booking repository.

The client components (React/TypeScript) and the declarative database schema
(PostgreSQL dump `part_000` and the cinema migration) are shallowly embedded
below.  SQL `numeric` values and JavaScript number arithmetic on prices are
modelled as `ℚ`, integer columns as `Int`/`Nat`, strings as `String` except
seat labels, which are modelled as their lists of UTF-16 code units because
the code manipulates them through `charCodeAt`/`fromCharCode`/`parseInt`.
Backend calls are modelled by explicit state passing; where a call can fail,
the run consumes a schedule of outcomes, and writes that succeeded before a
failure stay in the resulting state or effect trace.
-/

namespace HubSpec

/-! ## Seat-label encoding (src/src/components/booking/SeatSelector.tsx) -/

/-- JavaScript `String.fromCharCode(n)`: the argument is converted with
ToUint16, i.e. reduced modulo 2^16, and becomes one UTF-16 code unit. -/
def fromCharCode (n : Nat) : Nat := n % 65536

/-- Decimal digits of a natural number, most significant first
(the rendering performed by the template literal on `col + 1`).
Fuel-based so that it reduces by kernel computation. -/
def natDigitsAux : Nat → Nat → List Nat
  | 0, _ => []
  | fuel + 1, n => if n < 10 then [n] else natDigitsAux fuel (n / 10) ++ [n % 10]

def natDigits (n : Nat) : List Nat := natDigitsAux (n + 1) n

/-- `getSeatLabel(row, col)` (SeatSelector.tsx lines 53-55): the character
with code `65 + row` followed by the decimal numeral of `col + 1`.
The label is the list of UTF-16 code units. -/
def getSeatLabel (row col : Nat) : List Nat :=
  fromCharCode (65 + row) :: (natDigits (col + 1)).map (fun d => d + 48)

/-- `parseInt` applied to an all-digit string, given as code units. -/
def parseIntDigits (cs : List Nat) : Nat :=
  cs.foldl (fun a c => a * 10 + (c - 48)) 0

/-- `label.charCodeAt(0) - 65` (SeatSelector.tsx line 85). -/
def decodeSeatRow (label : List Nat) : Int := (label.headD 0 : Int) - 65

/-- `parseInt(label.slice(1)) - 1` (SeatSelector.tsx line 86). -/
def decodeSeatCol (label : List Nat) : Int := (parseIntDigits label.tail : Int) - 1

/-- Value of a digit list read back as a decimal number. -/
def parseIntVal (ds : List Nat) : Nat := ds.foldl (fun a d => a * 10 + d) 0

/-! ## products table (src/unnamed/part_000 lines 196-216) -/

/-- PostgreSQL `round(x, 2)` on `numeric`: rounds half away from zero to
two decimal places. -/
def pgRound2 (q : ℚ) : ℚ :=
  if q < 0 then -(((⌊-q * 100 + 1 / 2⌋ : ℤ) : ℚ) / 100)
  else ((⌊q * 100 + 1 / 2⌋ : ℤ) : ℚ) / 100

/-- A `products` row.  `purchase_price` and `mrp` are nullable; the
generated column `discount_percentage` is a function of the row, below. -/
structure Product where
  id : String
  seller_id : String
  name : String
  price : ℚ
  stock_quantity : Int
  purchase_price : Option ℚ
  mrp : Option ℚ
deriving DecidableEq

/-- The generated column (part_000 lines 211-215):
`CASE WHEN mrp > 0 THEN round(((mrp - price) / mrp) * 100, 2) ELSE 0 END`.
A NULL `mrp` makes the comparison unknown, so the CASE falls to the ELSE arm. -/
def discount_percentage (p : Product) : ℚ :=
  match p.mrp with
  | some m => if 0 < m then pgRound2 ((m - p.price) / m * 100) else 0
  | none => 0

/-- The formula as the specification states it: discount equals
`round(((mrp - price) / mrp) * 100, 2)` in exact numeric arithmetic when
`mrp > 0`, and 0 otherwise (a missing mrp never satisfies `mrp > 0`). -/
def specDiscount (price : ℚ) (mrp : Option ℚ) : ℚ :=
  if 0 < mrp.getD 0 then pgRound2 ((mrp.getD 0 - price) / mrp.getD 0 * 100) else 0

/-! ## Retailer cart minimum-order-quantity tiers
(src/src/components/retailer/RetailerCart.tsx, updateQuantity) -/

/-- Outcome of one invocation of `updateQuantity`: either the function
returns before writing (silently, or after surfacing an error toast with
the applicable minimum), or the cart row is written with the new quantity. -/
inductive CartUpdateOutcome where
  | silentIgnore : CartUpdateOutcome
  | errorToast : Nat → CartUpdateOutcome
  | written : Int → CartUpdateOutcome
deriving DecidableEq

/-- The price-based minimum from RetailerCart.tsx lines 71-83. -/
def minQuantityFor (price : ℚ) : Nat :=
  if price < 100 then 100
  else if price < 800 then 50
  else if price < 1200 then 20
  else if price < 2000 then 10
  else if price < 7000 then 5
  else 1

/-- RetailerCart.tsx `updateQuantity` (lines 68-102): quantities below 1
return silently; quantities below the tier minimum surface an error toast
and leave the row unchanged; otherwise the new quantity is written. -/
def updateQuantity (price : ℚ) (newQuantity : Int) : CartUpdateOutcome :=
  if newQuantity < 1 then CartUpdateOutcome.silentIgnore
  else if newQuantity < (minQuantityFor price : Int) then
    CartUpdateOutcome.errorToast (minQuantityFor price)
  else CartUpdateOutcome.written newQuantity

/-- The tier table as the specification words it, with explicit intervals:
100 when price < 100, 50 when price < 800, 20 when price < 1200,
10 when price < 2000, 5 when price < 7000, and 1 otherwise. -/
def specTierMin (price : ℚ) : Nat :=
  if price < 100 then 100
  else if 100 ≤ price ∧ price < 800 then 50
  else if 800 ≤ price ∧ price < 1200 then 20
  else if 1200 ≤ price ∧ price < 2000 then 10
  else if 2000 ≤ price ∧ price < 7000 then 5
  else 1

/-! ## Retailer markup on purchase
(RetailerCheckout.tsx lines 155-170, RetailerOrderManagement.tsx lines 584-613) -/

/-- The product row inserted for the retailer by the cart-checkout path
(RetailerCheckout.tsx lines 157-170) when the retailer does not already
stock the product: price is the wholesale price times 1.2,
purchase_price is the wholesale price. -/
def retailCartNewProduct (retailerId freshId : String) (product : Product)
    (qty : Nat) : Product :=
  { id := freshId
    seller_id := retailerId
    name := product.name
    price := product.price * 1.2
    stock_quantity := (qty : Int)
    purchase_price := some product.price
    mrp := product.mrp }

/-- The product row inserted for the retailer by the buy-from-wholesaler
path (RetailerOrderManagement.tsx lines 584, 599-613): price is the
wholesale price times 1.3, purchase_price is the wholesale price;
no mrp is set. -/
def buyFromWholesalerNewProduct (retailerId freshId : String)
    (selectedProduct : Product) (qty : Nat) : Product :=
  { id := freshId
    seller_id := retailerId
    name := selectedProduct.name
    price := selectedProduct.price * 1.3
    stock_quantity := (qty : Int)
    purchase_price := some selectedProduct.price
    mrp := none }

/-! ## Customer checkout (src/src/components/customer/CheckoutDialog.tsx) -/

/-- A cart row joined with its product, as fetched by CartSheet and passed
to CheckoutDialog: the quantity plus product id, unit price and seller. -/
structure CartItem where
  id : String
  productId : String
  quantity : Nat
  price : ℚ
  sellerId : String
deriving DecidableEq

/-- The distinct seller ids of the cart in first-occurrence order: the key
order of the object built by `cartItems.reduce` (lines 103-110), since a
JavaScript object with non-index string keys enumerates in insertion
order. -/
def sellerKeys : List CartItem → List String
  | [] => []
  | it :: rest => it.sellerId :: (sellerKeys rest).filter (fun s => s != it.sellerId)

/-- `itemsBySeller` (lines 103-110): each distinct seller paired with the
cart items of that seller, in cart order. -/
def groupBySeller (items : List CartItem) : List (String × List CartItem) :=
  (sellerKeys items).map (fun s => (s, items.filter (fun it => it.sellerId == s)))

/-- `orderTotal` (lines 114-117): sum of unit price times quantity. -/
def orderTotal (its : List CartItem) : ℚ :=
  (its.map (fun it => it.price * (it.quantity : ℚ))).sum

/-- An `orders` row as inserted by handlePlaceOrder (lines 122-138);
generated ids are modelled by the per-seller loop index. -/
structure OrderRow where
  oid : Nat
  customerId : String
  sellerId : String
  totalAmount : ℚ
deriving DecidableEq

/-- An `order_items` row as inserted by handlePlaceOrder (lines 143-152). -/
structure OrderItemRow where
  orderId : Nat
  productId : String
  quantity : Nat
  price : ℚ
deriving DecidableEq

/-- The order_items rows built for one order (lines 143-148): one row per
cart item, carrying the item quantity and unit price. -/
def mkOrderItems (k : Nat) (its : List CartItem) : List OrderItemRow :=
  its.map (fun it =>
    { orderId := k, productId := it.productId, quantity := it.quantity, price := it.price })

/-- The per-seller loop (lines 113-155) on the all-success path: for the
k-th seller group one orders row and its order_items rows. -/
def buildOrders (userId : String) :
    Nat → List (String × List CartItem) → List OrderRow × List OrderItemRow
  | _, [] => ([], [])
  | k, g :: rest =>
    let r := buildOrders userId (k + 1) rest
    ({ oid := k, customerId := userId, sellerId := g.1, totalAmount := orderTotal g.2 } :: r.1,
      mkOrderItems k g.2 ++ r.2)

/-- The stock pre-check (lines 88-100): every item must have a product row
and stock at least the requested quantity, else the handler returns early. -/
def stockCheckPasses (items : List CartItem) (stockOf : String → Option Int) : Bool :=
  items.all (fun it =>
    match stockOf it.productId with
    | some s => decide ((it.quantity : Int) ≤ s)
    | none => false)

/-- The rows written by a fully successful handlePlaceOrder run, plus
whether the cart delete (lines 158-163) executed. -/
structure PlaceOrderResult where
  orders : List OrderRow
  orderItems : List OrderItemRow
  cartCleared : Bool
deriving DecidableEq

def placeOrderResult (userId : String) (items : List CartItem) : PlaceOrderResult :=
  { orders := (buildOrders userId 0 (groupBySeller items)).1
    orderItems := (buildOrders userId 0 (groupBySeller items)).2
    cartCleared := true }

/-- handlePlaceOrder (lines 81-176) when every backend write succeeds:
none exactly when the stock pre-check aborts the run. -/
def handlePlaceOrder (userId : String) (items : List CartItem)
    (stockOf : String → Option Int) : Option PlaceOrderResult :=
  if stockCheckPasses items stockOf then some (placeOrderResult userId items) else none

/-- The payload of an order_items row apart from the order link. -/
def projItem (oi : OrderItemRow) : String × Nat × ℚ := (oi.productId, oi.quantity, oi.price)

/-- The corresponding payload of a cart item. -/
def projCart (it : CartItem) : String × Nat × ℚ := (it.productId, it.quantity, it.price)

/-! ## Customer checkout under failures (CheckoutDialog.tsx lines 113-175).
Each backend write consumes the next outcome of a schedule; a failed call
writes nothing and the thrown error aborts the run, keeping earlier
writes. -/

/-- A database write performed by handlePlaceOrder. -/
inductive CEff where
  | insertOrder : Nat → String → ℚ → CEff
  | insertOrderItems : Nat → List OrderItemRow → CEff
  | clearCart : String → CEff
deriving DecidableEq

/-- Consume the next scheduled outcome; an exhausted schedule succeeds. -/
def nextOutcome : List Bool → Bool × List Bool
  | [] => (true, [])
  | b :: r => (b, r)

/-- The per-seller loop under a failure schedule: returns the writes that
succeeded, whether the loop completed, and the unconsumed schedule. -/
def runSellerLoop :
    Nat → List (String × List CartItem) → List Bool → List CEff × Bool × List Bool
  | _, [], outs => ([], true, outs)
  | k, g :: rest, outs =>
    let s1 := nextOutcome outs
    if s1.1 then
      let s2 := nextOutcome s1.2
      if s2.1 then
        let r := runSellerLoop (k + 1) rest s2.2
        (CEff.insertOrder k g.1 (orderTotal g.2) :: CEff.insertOrderItems k (mkOrderItems k g.2) :: r.1,
          r.2.1, r.2.2)
      else ([CEff.insertOrder k g.1 (orderTotal g.2)], false, s2.2)
    else ([], false, s1.2)

/-- handlePlaceOrder under a failure schedule: the writes performed and
whether the whole run succeeded.  A false second component means the catch
block ran (or the stock pre-check aborted); the listed writes remain. -/
def runHandlePlaceOrder (userId : String) (items : List CartItem)
    (stockOf : String → Option Int) (outs : List Bool) : List CEff × Bool :=
  if stockCheckPasses items stockOf then
    let r := runSellerLoop 0 (groupBySeller items) outs
    if r.2.1 then
      let sc := nextOutcome r.2.2
      if sc.1 then (r.1 ++ [CEff.clearCart userId], true) else (r.1, false)
    else (r.1, false)
  else ([], false)

/-! ## Backend calls attempted and toasts surfaced (for the error-handling
claim).  Call descriptors identify one backend operation of one action. -/

inductive CallDesc where
  | readStock : String → CallDesc
  | insertOrderCall : Nat → CallDesc
  | insertOrderItemsCall : Nat → CallDesc
  | clearCartCall : CallDesc
deriving DecidableEq

/-- The stock reads issued by the pre-check loop (lines 88-100), which
returns at the first missing or insufficient product. -/
def stockCheckAttempts (items : List CartItem) (stockOf : String → Option Int) : List CallDesc :=
  match items with
  | [] => []
  | it :: rest =>
    CallDesc.readStock it.productId ::
      (match stockOf it.productId with
       | some s => if (it.quantity : Int) ≤ s then stockCheckAttempts rest stockOf else []
       | none => [])

/-- The write calls attempted by the per-seller loop under a schedule:
a failed call is still an attempt, and nothing is attempted after it. -/
def sellerLoopAttempts :
    Nat → List (String × List CartItem) → List Bool → List CallDesc
  | _, [], _ => []
  | k, _ :: rest, outs =>
    let s1 := nextOutcome outs
    CallDesc.insertOrderCall k ::
      (if s1.1 then
        let s2 := nextOutcome s1.2
        CallDesc.insertOrderItemsCall k ::
          (if s2.1 then sellerLoopAttempts (k + 1) rest s2.2 else [])
      else [])

/-- All backend calls attempted by one handlePlaceOrder invocation. -/
def placeOrderAttempts (userId : String) (items : List CartItem)
    (stockOf : String → Option Int) (outs : List Bool) : List CallDesc :=
  stockCheckAttempts items stockOf ++
    (if stockCheckPasses items stockOf then
      sellerLoopAttempts 0 (groupBySeller items) outs ++
        (let r := runSellerLoop 0 (groupBySeller items) outs
         if r.2.1 then [CallDesc.clearCartCall] else [])
    else [])

/-- The toasts surfaced by one handlePlaceOrder invocation (message bodies
abbreviated): an insufficient-stock toast on pre-check abort, the catch
block toast on a failed write, the success toast otherwise. -/
def placeOrderToasts (userId : String) (items : List CartItem)
    (stockOf : String → Option Int) (outs : List Bool) : List String :=
  if stockCheckPasses items stockOf then
    if (runHandlePlaceOrder userId items stockOf outs).2 then ["Order placed successfully!"]
    else ["Failed to place order"]
  else ["Insufficient stock"]

/-- fetchBookedSeats (SeatSelector.tsx lines 36-51): the bookings read and
the booking_seats read.  Errors are not checked: a failed read leaves data
null, the guards skip, and no toast is ever surfaced.  Returns the booked
seat set (as a list) and the surfaced toasts. -/
def fetchBookedSeats (bookingsRes seatsRes : Except String (List String)) :
    List String × List String :=
  match bookingsRes with
  | Except.error _ => ([], [])
  | Except.ok bookingIds =>
    if bookingIds.isEmpty then ([], [])
    else
      match seatsRes with
      | Except.error _ => ([], [])
      | Except.ok seats => (seats, [])

/-! ## products-table state and the stock trigger
(part_000 lines 80-92 and 422-425, RetailerCheckout.tsx lines 124-173) -/

/-- The `update_product_stock` trigger function, fired AFTER INSERT on
order_items by `update_stock_on_order`: the referenced product row has its
stock_quantity decremented by the inserted quantity. -/
def update_product_stock (db : List Product) (pid : String) (q : Nat) : List Product :=
  db.map (fun r =>
    if r.id == pid then { r with stock_quantity := r.stock_quantity - (q : Int) } else r)

/-- A client-issued `UPDATE products SET stock_quantity = v WHERE id = pid`
executed as `actor`.  The products table has row-level security enabled and
its only UPDATE policy is `"Sellers can update own products"` with
`USING (auth.uid() = seller_id)` (part_000 lines 668, 842), so the update
affects exactly the rows matching the WHERE clause whose seller_id equals
the acting user; any other matching row is silently filtered out. -/
def clientUpdateStock (db : List Product) (actor pid : String) (v : Int) : List Product :=
  db.map (fun r =>
    if r.id == pid && r.seller_id == actor then { r with stock_quantity := v } else r)

/-- The loop body of RetailerCheckout.handleCheckout (lines 125-172), run
by the retailer (so auth.uid() is retailerId) after the order_items batch
insert: re-read the product, issue an UPDATE writing
stock_quantity := read value - quantity against the wholesaler row (which
row-level security filters down to rows the retailer owns), then upsert
the retailer copy: update its stock if a product of the same name and
seller exists (that row is retailer-owned, so the policy admits it),
otherwise insert the 1.2-markup row (the INSERT policy WITH CHECK
auth.uid() = seller_id holds since the new row carries
seller_id = retailerId). -/
def retailerHandleItem (db : List Product) (retailerId freshId pid : String)
    (q : Nat) : List Product :=
  match db.find? (fun r => r.id == pid) with
  | none => db
  | some product =>
    let db2 := clientUpdateStock db retailerId pid (product.stock_quantity - (q : Int))
    match db2.find? (fun r => r.seller_id == retailerId && r.name == product.name) with
    | some existing =>
      clientUpdateStock db2 retailerId existing.id (existing.stock_quantity + (q : Int))
    | none => db2 ++ [retailCartNewProduct retailerId freshId product q]

/-- A write issued by application code (not by a trigger). -/
inductive AppEff where
  | updateStock : String → Int → AppEff
  | insertProduct : Product → AppEff
deriving DecidableEq

/-- The writes the application issues in the same loop body, as sent to
the backend and before any row-level-security filtering takes effect. -/
def retailerHandleItemEffects (db : List Product) (retailerId freshId pid : String)
    (q : Nat) : List AppEff :=
  match db.find? (fun r => r.id == pid) with
  | none => []
  | some product =>
    let db2 := clientUpdateStock db retailerId pid (product.stock_quantity - (q : Int))
    AppEff.updateStock pid (product.stock_quantity - (q : Int)) ::
      (match db2.find? (fun r => r.seller_id == retailerId && r.name == product.name) with
       | some existing => [AppEff.updateStock existing.id (existing.stock_quantity + (q : Int))]
       | none => [AppEff.insertProduct (retailCartNewProduct retailerId freshId product q)])

/-! ## Cinema schema and seat booking
(supabase/migrations/...sql, SeatSelector.tsx lines 64-110) -/

structure ShowtimeRow where
  id : String
  price : ℚ
  available_seats : Int
deriving DecidableEq

structure BookingRow where
  id : String
  user_id : String
  showtime_id : String
  total_amount : ℚ
  status : String
deriving DecidableEq

structure BookingSeatRow where
  id : String
  booking_id : String
  seat_row : Int
  seat_col : Int
  seat_label : List Nat
deriving DecidableEq

structure CinemaDB where
  showtimes : List ShowtimeRow
  bookings : List BookingRow
  booking_seats : List BookingSeatRow
deriving DecidableEq

/-- Insert into bookings, checking every constraint the migration declares
on that table: primary-key uniqueness, the showtime foreign key, and the
row-level-security check user_id = auth.uid(). -/
def insertBooking (db : CinemaDB) (actor : String) (b : BookingRow) : Option CinemaDB :=
  if db.bookings.all (fun x => x.id != b.id)
      && db.showtimes.any (fun s => s.id == b.showtime_id)
      && (b.user_id == actor) then
    some { db with bookings := db.bookings ++ [b] }
  else none

/-- Insert into booking_seats, checking every constraint the migration
declares on that table: primary-key uniqueness, the booking foreign key,
and the row-level-security check that the booking belongs to the actor.
The migration declares no uniqueness over (showtime, seat_label). -/
def insertBookingSeat (db : CinemaDB) (actor : String) (r : BookingSeatRow) : Option CinemaDB :=
  if db.booking_seats.all (fun x => x.id != r.id)
      && db.bookings.any (fun b => b.id == r.booking_id && b.user_id == actor) then
    some { db with booking_seats := db.booking_seats ++ [r] }
  else none

def insertBookingSeats (db : CinemaDB) (actor : String) :
    List BookingSeatRow → Option CinemaDB
  | [] => some db
  | r :: rest =>
    match insertBookingSeat db actor r with
    | some db2 => insertBookingSeats db2 actor rest
    | none => none

/-- The showtimes update of lines 99-102 (its error is ignored). -/
def updateShowtimeSeats (db : CinemaDB) (stId : String) (v : Int) : CinemaDB :=
  { db with
    showtimes := db.showtimes.map (fun s =>
      if s.id == stId then { s with available_seats := v } else s) }

/-- handleBooking (lines 64-110): insert one confirmed booking, insert one
booking_seats row per selected label (decoding the label), then write the
stale client-side available_seats minus the selection size.  It performs
no read of bookings or booking_seats and no conflict check. -/
def handleBooking (db : CinemaDB) (actor stId : String) (stPrice : ℚ) (stAvail : Int)
    (selected : List (List Nat)) (bid : String) (sids : List String) : Option CinemaDB :=
  if selected.isEmpty then some db
  else
    match insertBooking db actor
        { id := bid, user_id := actor, showtime_id := stId,
          total_amount := (selected.length : ℚ) * stPrice, status := "confirmed" } with
    | none => none
    | some db1 =>
      match insertBookingSeats db1 actor
          ((sids.zip selected).map (fun x =>
            { id := x.1, booking_id := bid, seat_row := decodeSeatRow x.2,
              seat_col := decodeSeatCol x.2, seat_label := x.2 })) with
      | none => none
      | some db2 => some (updateShowtimeSeats db2 stId (stAvail - (selected.length : Int)))

/-! ## Concrete inputs used by witnesses and counterexamples -/

def c2item1 : CartItem :=
  { id := "c1", productId := "p1", quantity := 1, price := 10, sellerId := "s1" }

def c2item2 : CartItem :=
  { id := "c2", productId := "p2", quantity := 2, price := 20, sellerId := "s2" }

def c2items : List CartItem := [c2item1, c2item2]

def ampleStock : String → Option Int := fun _ => some 100

def c1items : List CartItem :=
  [{ id := "c1", productId := "p1", quantity := 2, price := 50, sellerId := "s1" },
   { id := "c2", productId := "p2", quantity := 1, price := 100, sellerId := "s2" },
   { id := "c3", productId := "p3", quantity := 3, price := 10, sellerId := "s1" }]

def wsProduct : Product :=
  { id := "p1", seller_id := "w1", name := "Rice", price := 100,
    stock_quantity := 10, purchase_price := none, mrp := some 120 }

def dbOne : List Product := [wsProduct]

def st0 : ShowtimeRow := { id := "st1", price := 150, available_seats := 120 }

def cinemaDb0 : CinemaDB := { showtimes := [st0], bookings := [], booking_seats := [] }

def emptyCinemaDB : CinemaDB := { showtimes := [], bookings := [], booking_seats := [] }

def seatA1 : List Nat := getSeatLabel 0 0

def c10run1 : Option CinemaDB :=
  handleBooking cinemaDb0 "alice" "st1" 150 120 [seatA1] "b1" ["bs1"]

def c10run2 : Option CinemaDB :=
  c10run1.bind (fun db1 => handleBooking db1 "bob" "st1" 150 120 [seatA1] "b2" ["bs2"])

/-! ## Helper lemmas -/

theorem foldl_parse_append (ds : List Nat) (a d : Nat) :
    (ds ++ [d]).foldl (fun x y => x * 10 + y) a =
      (ds.foldl (fun x y => x * 10 + y) a) * 10 + d := by
  simp [List.foldl_append]

theorem parseIntVal_natDigitsAux :
    ∀ fuel n : Nat, n < fuel → parseIntVal (natDigitsAux fuel n) = n := by
  intro fuel
  induction fuel with
  | zero => intro n h; omega
  | succ f ih =>
    intro n h
    by_cases h10 : n < 10
    · simp [natDigitsAux, h10, parseIntVal]
    · have h1 : n / 10 < n := Nat.div_lt_self (by omega) (by omega)
      have hdiv : n / 10 < f := by omega
      have hmod : n % 10 < 10 := Nat.mod_lt _ (by omega)
      unfold natDigitsAux
      simp only [if_neg h10]
      unfold parseIntVal at ih ⊢
      rw [foldl_parse_append, ih (n / 10) hdiv]
      omega

theorem parseIntVal_natDigits (n : Nat) : parseIntVal (natDigits n) = n :=
  parseIntVal_natDigitsAux (n + 1) n (by omega)

theorem parseIntDigits_map_digits (ds : List Nat) :
    parseIntDigits (ds.map (fun d => d + 48)) = parseIntVal ds := by
  unfold parseIntDigits parseIntVal
  rw [List.foldl_map]
  simp only [Nat.add_sub_cancel]

theorem flatMap_congr_mem {α β : Type} {l : List α} {f g : α → List β}
    (h : ∀ a ∈ l, f a = g a) : l.flatMap f = l.flatMap g := by
  induction l with
  | nil => rfl
  | cons a t ih =>
    simp only [List.flatMap_cons]
    rw [h a (List.mem_cons_self a t), ih (fun b hb => h b (List.mem_cons_of_mem a hb))]

theorem flatMap_of_map {α β γ : Type} (l : List α) (f : α → β) (h : β → List γ) :
    (l.map f).flatMap h = l.flatMap (fun a => h (f a)) := by
  induction l with
  | nil => rfl
  | cons a t ih => simp only [List.map_cons, List.flatMap_cons, ih]

theorem sellerKeys_nodup (items : List CartItem) : (sellerKeys items).Nodup := by
  induction items with
  | nil => simp [sellerKeys]
  | cons it rest ih =>
    refine List.nodup_cons.mpr ⟨?_, ih.filter _⟩
    intro hmem
    have := List.of_mem_filter hmem
    simp at this

theorem mem_sellerKeys (items : List CartItem) (s : String) :
    s ∈ sellerKeys items ↔ s ∈ items.map CartItem.sellerId := by
  induction items with
  | nil => simp [sellerKeys]
  | cons it rest ih =>
    simp only [sellerKeys, List.map_cons, List.mem_cons, List.mem_filter]
    by_cases hs : s = it.sellerId
    · simp [hs]
    · simp [hs, ih, bne_iff_ne]

/-- Grouping by distinct keys and concatenating back is a permutation of
the original item list. -/
theorem flatMap_filter_perm :
    ∀ (ks : List String) (items : List CartItem), ks.Nodup →
      (∀ it ∈ items, it.sellerId ∈ ks) →
      List.Perm (ks.flatMap (fun s => items.filter (fun it => it.sellerId == s))) items := by
  intro ks
  induction ks with
  | nil =>
    intro items _ hcov
    cases items with
    | nil => simp
    | cons a l => exact absurd (hcov a (List.mem_cons_self a l)) (List.not_mem_nil _)
  | cons k ks ih =>
    intro items hnd hcov
    have hk : k ∉ ks := (List.nodup_cons.mp hnd).1
    have hnd2 : ks.Nodup := (List.nodup_cons.mp hnd).2
    simp only [List.flatMap_cons]
    have hstep : ∀ s ∈ ks,
        items.filter (fun it => it.sellerId == s)
          = (items.filter (fun it => !(it.sellerId == k))).filter
              (fun it => it.sellerId == s) := by
      intro s hs
      have hsk : s ≠ k := fun e => hk (e ▸ hs)
      rw [List.filter_filter]
      apply List.filter_congr
      intro it _
      by_cases h : it.sellerId = s
      · have hne : it.sellerId ≠ k := by rw [h]; exact hsk
        simp [h, hne, hsk]
      · simp [h]
    rw [flatMap_congr_mem hstep]
    have hcov2 : ∀ it ∈ items.filter (fun it => !(it.sellerId == k)), it.sellerId ∈ ks := by
      intro it hit
      have hmem := List.mem_of_mem_filter hit
      have hprop := List.of_mem_filter hit
      have hne : it.sellerId ≠ k := by simpa using hprop
      have := hcov it hmem
      simp only [List.mem_cons] at this
      exact this.resolve_left hne
    have hperm := ih (items.filter (fun it => !(it.sellerId == k))) hnd2 hcov2
    refine List.Perm.trans (List.Perm.append_left _ hperm) ?_
    exact List.filter_append_perm _ items

theorem buildOrders_orders_sellers (u : String) :
    ∀ (groups : List (String × List CartItem)) (k : Nat),
      ((buildOrders u k groups).1).map OrderRow.sellerId = groups.map Prod.fst := by
  intro groups
  induction groups with
  | nil => intro k; rfl
  | cons g rest ih => intro k; simp [buildOrders, ih]

theorem buildOrders_orders_mem (u : String) :
    ∀ (groups : List (String × List CartItem)) (k : Nat) (o : OrderRow),
      o ∈ (buildOrders u k groups).1 →
      o.customerId = u ∧ ∃ g ∈ groups, o.sellerId = g.1 ∧ o.totalAmount = orderTotal g.2 := by
  intro groups
  induction groups with
  | nil => intro k o ho; simp [buildOrders] at ho
  | cons g rest ih =>
    intro k o ho
    simp only [buildOrders, List.mem_cons] at ho
    rcases ho with h | h
    · subst h
      exact ⟨rfl, g, List.mem_cons_self _ _, rfl, rfl⟩
    · obtain ⟨hc, g2, hg2, hs, ht⟩ := ih (k + 1) o h
      exact ⟨hc, g2, List.mem_cons_of_mem _ hg2, hs, ht⟩

theorem buildOrders_items_proj (u : String) :
    ∀ (groups : List (String × List CartItem)) (k : Nat),
      ((buildOrders u k groups).2).map projItem
        = groups.flatMap (fun g => g.2.map projCart) := by
  intro groups
  induction groups with
  | nil => intro k; rfl
  | cons g rest ih =>
    intro k
    simp only [buildOrders, List.flatMap_cons, List.map_append, ih, mkOrderItems,
      List.map_map]
    rfl

theorem buildOrders_items_linked (u : String) :
    ∀ (groups : List (String × List CartItem)) (k : Nat) (oi : OrderItemRow),
      oi ∈ (buildOrders u k groups).2 →
      ∃ o ∈ (buildOrders u k groups).1, o.oid = oi.orderId := by
  intro groups
  induction groups with
  | nil => intro k oi h; simp [buildOrders] at h
  | cons g rest ih =>
    intro k oi h
    simp only [buildOrders, List.mem_append] at h
    rcases h with h | h
    · refine ⟨{ oid := k, customerId := u, sellerId := g.1, totalAmount := orderTotal g.2 },
        by simp [buildOrders], ?_⟩
      simp only [mkOrderItems, List.mem_map] at h
      obtain ⟨it, _, rfl⟩ := h
      rfl
    · obtain ⟨o, ho, hoid⟩ := ih (k + 1) oi h
      exact ⟨o, by simp only [buildOrders, List.mem_cons]; exact Or.inr ho, hoid⟩

theorem mem_groupBySeller (items : List CartItem) (g : String × List CartItem)
    (hg : g ∈ groupBySeller items) :
    g.2 = items.filter (fun it => it.sellerId == g.1) := by
  simp only [groupBySeller, List.mem_map] at hg
  obtain ⟨s, _, rfl⟩ := hg
  rfl

/-! ## Claim theorems: C5, C6, C7, C8 -/

/-- C5: on a retailer purchase of a wholesale product it does not already
stock, the new product row carries price equal to the wholesale unit price
times a constant factor between 1.2 and 1.3 inclusive (1.2 in the
cart-checkout path, 1.3 in the buy-from-wholesaler path), and
purchase_price equal to the wholesale unit price. -/
theorem c5_flat_markup (retailerId freshId : String) (product : Product) (qty : Nat) :
    (retailCartNewProduct retailerId freshId product qty).price
        = product.price * (1.2 : ℚ) ∧
    (buyFromWholesalerNewProduct retailerId freshId product qty).price
        = product.price * (1.3 : ℚ) ∧
    (retailCartNewProduct retailerId freshId product qty).purchase_price
        = some product.price ∧
    (buyFromWholesalerNewProduct retailerId freshId product qty).purchase_price
        = some product.price ∧
    ((1.2 : ℚ) ≤ 1.2 ∧ (1.2 : ℚ) ≤ 1.3) ∧ ((1.2 : ℚ) ≤ 1.3 ∧ (1.3 : ℚ) ≤ 1.3) := by
  refine ⟨rfl, rfl, rfl, rfl, ⟨le_refl _, by norm_num⟩, ⟨by norm_num, le_refl _⟩⟩

/-- C6 counterexample: the claim quantifies over every row index r ≥ 0,
but `String.fromCharCode` reduces `65 + row` modulo 2^16, so at
row = 65471 (where 65 + row = 2^16) the label starts with code unit 0 and
decodes to row -65, not 65471.  The decoding is therefore not a left
inverse of the encoding on all of ℕ. -/
theorem c6_counterexample :
    ¬ (decodeSeatRow (getSeatLabel 65471 0) = (65471 : Int) ∧
       decodeSeatCol (getSeatLabel 65471 0) = (0 : Int)) := by
  decide

/-- C6 (amended): whenever `65 + row < 65536` (so `fromCharCode` does not
truncate) and for every column index, decoding the seat label returns
exactly the encoded row and column indices. -/
theorem c6_seat_label_roundtrip (r c : Nat) (h : 65 + r < 65536) :
    decodeSeatRow (getSeatLabel r c) = (r : Int) ∧
    decodeSeatCol (getSeatLabel r c) = (c : Int) := by
  constructor
  · simp only [decodeSeatRow, getSeatLabel, fromCharCode, Nat.mod_eq_of_lt h,
      List.headD_cons]
    push_cast
    ring
  · simp only [decodeSeatCol, getSeatLabel, List.tail_cons]
    rw [parseIntDigits_map_digits, parseIntVal_natDigits]
    push_cast
    ring

/-- Witness for the amended C6 at row 2, column 4 (seat label C5). -/
theorem c6_seat_label_roundtrip_witness :
    decodeSeatRow (getSeatLabel 2 4) = ((2 : Nat) : Int) ∧
    decodeSeatCol (getSeatLabel 2 4) = ((4 : Nat) : Int) :=
  c6_seat_label_roundtrip 2 4 (by decide)

/-- C7: the generated column discount_percentage equals
`round(((mrp - price) / mrp) * 100, 2)` in exact numeric arithmetic when
mrp > 0 and 0 otherwise, exactly the formula stated by the specification. -/
theorem c7_discount_generated_column (p : Product) :
    discount_percentage p = specDiscount p.price p.mrp := by
  unfold discount_percentage specDiscount
  cases hm : p.mrp with
  | none => simp
  | some m =>
    by_cases h0 : 0 < m
    · simp [h0]
    · simp [h0]

/-- C8 counterexample: a new quantity of 0 on a product of unit price 10
is below the applicable tier minimum (100), and the cart row is indeed
left unchanged, but no error is surfaced: updateQuantity returns silently
instead of producing the error toast the claim requires for every
below-minimum quantity. -/
theorem c8_counterexample :
    updateQuantity 10 0 = CartUpdateOutcome.silentIgnore ∧
    updateQuantity 10 0 ≠ CartUpdateOutcome.errorToast (minQuantityFor 10) ∧
    (0 : Int) < (minQuantityFor 10 : Int) := by
  decide

/-- C8 (amended): the quantity is written iff it is at least 1 and at
least the tier minimum for the unit price (100 when price < 100, 50 when
price < 800, 20 when price < 1200, 10 when price < 2000, 5 when
price < 7000, 1 otherwise); a quantity of at least 1 but below the minimum
leaves the row unchanged and surfaces an error; a quantity below 1 leaves
the row unchanged silently, with no error surfaced. -/
theorem c8_moq_tiers (price : ℚ) (q : Int) :
    (updateQuantity price q = CartUpdateOutcome.written q ↔
        1 ≤ q ∧ (minQuantityFor price : Int) ≤ q) ∧
    (updateQuantity price q = CartUpdateOutcome.errorToast (minQuantityFor price) ↔
        1 ≤ q ∧ q < (minQuantityFor price : Int)) ∧
    (updateQuantity price q = CartUpdateOutcome.silentIgnore ↔ q < 1) ∧
    minQuantityFor price = specTierMin price := by
  refine ⟨?_, ?_, ?_, ?_⟩
  · unfold updateQuantity
    split_ifs with h1 h2 <;> simp <;> omega
  · unfold updateQuantity
    split_ifs with h1 h2 <;> simp <;> omega
  · unfold updateQuantity
    split_ifs with h1 h2 <;> simp <;> omega
  · unfold minQuantityFor specTierMin
    by_cases a1 : price < 100
    · simp [a1]
    · have h1 : 100 ≤ price := not_lt.mp a1
      by_cases a2 : price < 800
      · simp [a1, a2, h1]
      · have h2 : 800 ≤ price := not_lt.mp a2
        by_cases a3 : price < 1200
        · simp [a1, a2, a3, h1, h2]
        · have h3 : 1200 ≤ price := not_lt.mp a3
          by_cases a4 : price < 2000
          · simp [a1, a2, a3, a4, h1, h2, h3]
          · have h4 : 2000 ≤ price := not_lt.mp a4
            by_cases a5 : price < 7000
            · simp [a1, a2, a3, a4, a5, h1, h2, h3, h4]
            · simp [a1, a2, a3, a4, a5, h1, h2, h3, h4]

/-- C1: for a non-empty customer cart whose stock pre-check passes and an
all-success run, handlePlaceOrder groups the cart by seller and inserts
exactly one orders row per distinct seller (the orders carry the distinct
sellers of the cart, without repetition), each with total_amount the sum
over that seller of unit price times quantity; it inserts one order_items
row per cart item carrying that item quantity and unit price, each linked
to an inserted order; afterwards every cart row of the user is deleted. -/
theorem c1_checkout_per_seller (userId : String) (items : List CartItem)
    (stockOf : String → Option Int) (hne : items ≠ [])
    (hstock : stockCheckPasses items stockOf = true) :
    handlePlaceOrder userId items stockOf = some (placeOrderResult userId items) ∧
    (placeOrderResult userId items).orders.map OrderRow.sellerId = sellerKeys items ∧
    (sellerKeys items).Nodup ∧
    List.Perm (sellerKeys items) (items.map CartItem.sellerId).dedup ∧
    ((placeOrderResult userId items).orders.all (fun o =>
        (o.customerId == userId) &&
          (o.totalAmount == orderTotal (items.filter (fun it => it.sellerId == o.sellerId)))))
      = true ∧
    List.Perm ((placeOrderResult userId items).orderItems.map projItem)
      (items.map projCart) ∧
    ((placeOrderResult userId items).orderItems.all (fun oi =>
        (placeOrderResult userId items).orders.any (fun o => o.oid == oi.orderId))) = true ∧
    (placeOrderResult userId items).cartCleared = true := by
  refine ⟨?_, ?_, sellerKeys_nodup items, ?_, ?_, ?_, ?_, rfl⟩
  · unfold handlePlaceOrder
    rw [hstock]
    rfl
  · show ((buildOrders userId 0 (groupBySeller items)).1).map OrderRow.sellerId = _
    rw [buildOrders_orders_sellers]
    unfold groupBySeller
    rw [List.map_map]
    have hid : (Prod.fst ∘ fun s => (s, items.filter (fun it => it.sellerId == s))) = id := rfl
    rw [hid, List.map_id]
  · rw [List.perm_ext_iff_of_nodup (sellerKeys_nodup items) (items.map CartItem.sellerId).nodup_dedup]
    intro a
    rw [mem_sellerKeys, List.mem_dedup]
  · rw [List.all_eq_true]
    intro o ho
    obtain ⟨hc, g, hg, hs, ht⟩ := buildOrders_orders_mem userId (groupBySeller items) 0 o ho
    have hfilter := mem_groupBySeller items g hg
    rw [Bool.and_eq_true, beq_iff_eq, beq_iff_eq]
    exact ⟨hc, by rw [ht, hfilter, hs]⟩
  · show List.Perm (((buildOrders userId 0 (groupBySeller items)).2).map projItem) _
    rw [buildOrders_items_proj, groupBySeller, flatMap_of_map]
    have hrw : (sellerKeys items).flatMap
          (fun s => ((items.filter (fun it => it.sellerId == s)).map projCart))
        = ((sellerKeys items).flatMap
            (fun s => items.filter (fun it => it.sellerId == s))).map projCart := by
      rw [List.map_flatMap]
    rw [hrw]
    refine List.Perm.map projCart ?_
    refine flatMap_filter_perm (sellerKeys items) items (sellerKeys_nodup items) ?_
    intro it hit
    rw [mem_sellerKeys]
    exact List.mem_map_of_mem CartItem.sellerId hit
  · rw [List.all_eq_true]
    intro oi hoi
    obtain ⟨o, ho, hoid⟩ := buildOrders_items_linked userId (groupBySeller items) 0 oi hoi
    rw [List.any_eq_true]
    exact ⟨o, ho, by rw [beq_iff_eq, hoid]⟩

/-- Witness for C1 on a concrete three-item, two-seller cart. -/
theorem c1_checkout_per_seller_witness :
    handlePlaceOrder "u1" c1items ampleStock = some (placeOrderResult "u1" c1items) ∧
    (placeOrderResult "u1" c1items).orders.map OrderRow.sellerId = sellerKeys c1items ∧
    (sellerKeys c1items).Nodup ∧
    List.Perm (sellerKeys c1items) (c1items.map CartItem.sellerId).dedup ∧
    ((placeOrderResult "u1" c1items).orders.all (fun o =>
        (o.customerId == "u1") &&
          (o.totalAmount == orderTotal (c1items.filter (fun it => it.sellerId == o.sellerId)))))
      = true ∧
    List.Perm ((placeOrderResult "u1" c1items).orderItems.map projItem)
      (c1items.map projCart) ∧
    ((placeOrderResult "u1" c1items).orderItems.all (fun oi =>
        (placeOrderResult "u1" c1items).orders.any (fun o => o.oid == oi.orderId))) = true ∧
    (placeOrderResult "u1" c1items).cartCleared = true :=
  c1_checkout_per_seller "u1" c1items ampleStock (by decide) (by decide)

/-- C2: the checkout write sequence is not atomic.  On a two-seller cart,
failing the second write leaves the first seller order inserted with no
order_items rows at all; failing the third write leaves the first seller
order and its items inserted while the second seller order was never
inserted and the cart was never cleared.  In both runs the handler stops
with an error (second component false) and the earlier writes remain in
the effect list. -/
theorem c2_checkout_not_atomic :
    runHandlePlaceOrder "u1" c2items ampleStock [true, false]
        = ([CEff.insertOrder 0 "s1" (orderTotal [c2item1])], false) ∧
    runHandlePlaceOrder "u1" c2items ampleStock [true, true, false]
        = ([CEff.insertOrder 0 "s1" (orderTotal [c2item1]),
            CEff.insertOrderItems 0 (mkOrderItems 0 [c2item1])], false) ∧
    orderTotal [c2item1] = 10 ∧
    orderTotal [c2item2] = 40 ∧
    CEff.clearCart "u1" ∉ (runHandlePlaceOrder "u1" c2items ampleStock [true, true, false]).1 ∧
    CEff.insertOrder 1 "s2" (orderTotal [c2item2]) ∉
      (runHandlePlaceOrder "u1" c2items ampleStock [true, true, false]).1 := by
  refine ⟨rfl, rfl, ?_, ?_, ?_, ?_⟩
  · norm_num [orderTotal, c2item1]
  · norm_num [orderTotal, c2item2]
  · decide
  · decide

theorem find?_map_update (db : List Product) (pid : String) (f : Product → Product)
    (hf : ∀ r, (f r).id = r.id) (p : Product)
    (h : db.find? (fun r => r.id == pid) = some p) :
    (db.map (fun r => if r.id == pid then f r else r)).find? (fun r => r.id == pid)
      = some (f p) := by
  induction db with
  | nil => simp at h
  | cons a l ih =>
    rw [List.find?_cons] at h
    cases ha : (a.id == pid) with
    | true =>
      rw [ha] at h
      injection h with h2
      subst h2
      have hfa : ((f a).id == pid) = true := by rw [hf]; exact ha
      simp only [List.map_cons, if_pos ha, List.find?_cons, hfa]
    | false =>
      rw [ha] at h
      have hne2 : ¬(a.id == pid) = true := by simp [ha]
      rw [List.map_cons, if_neg hne2, List.find?_cons, ha]
      exact ih h

theorem find?_append_left_products {l1 l2 : List Product} {p : Product → Bool} {x : Product}
    (h : l1.find? p = some x) : (l1 ++ l2).find? p = some x := by
  rw [List.find?_append, h]
  rfl

/-- A row-level-security-filtered stock UPDATE issued by an actor who does
not own the row found under pid leaves that find? result unchanged,
whatever row the UPDATE targets: rows the actor does not own are filtered
out of the update, and no update changes any id. -/
theorem find?_clientUpdate_preserve (db : List Product) (actor tid pid : String) (v : Int)
    (p : Product) (h : db.find? (fun r => r.id == pid) = some p)
    (hs : p.seller_id ≠ actor) :
    (clientUpdateStock db actor tid v).find? (fun r => r.id == pid) = some p := by
  induction db with
  | nil => simp at h
  | cons a l ih =>
    rw [List.find?_cons] at h
    cases ha : (a.id == pid) with
    | true =>
      rw [ha] at h
      injection h with h2
      subst h2
      have hsf : (a.seller_id == actor) = false := by
        simp only [beq_eq_false_iff_ne, ne_eq]
        exact hs
      have hcond : ¬(a.id == tid && a.seller_id == actor) = true := by
        simp [hsf]
      simp only [clientUpdateStock, List.map_cons]
      rw [if_neg hcond, List.find?_cons, ha]
    | false =>
      rw [ha] at h
      simp only [clientUpdateStock, List.map_cons]
      by_cases hc : (a.id == tid && a.seller_id == actor) = true
      · rw [if_pos hc, List.find?_cons]
        have hfa : ({ a with stock_quantity := v }.id == pid) = false := ha
        rw [hfa]
        exact ih h
      · rw [if_neg hc, List.find?_cons, ha]
        exact ih h

/-- C4 counterexample: on a one-product wholesaler table with stock 10 and
a retailer purchase of quantity 2, the claim predicts a final stock of
10 - 2*2 = 6, but the wholesaler row ends at 10 - 2 = 8: the trigger
decrements once, and the client UPDATE that would decrement again matches
zero rows under the products UPDATE row-level-security policy
(auth.uid() = seller_id), since the row belongs to the wholesaler, not to
the acting retailer. -/
theorem c4_counterexample :
    ((retailerHandleItem (update_product_stock dbOne "p1" 2) "r1" "f1" "p1" 2).find?
        (fun r => r.id == "p1")).map Product.stock_quantity
      ≠ some (wsProduct.stock_quantity - 2 * ((2 : Nat) : Int)) ∧
    ((retailerHandleItem (update_product_stock dbOne "p1" 2) "r1" "f1" "p1" 2).find?
        (fun r => r.id == "p1")).map Product.stock_quantity
      = some (wsProduct.stock_quantity - ((2 : Nat) : Int)) := by
  decide

/-- C4 (amended): when a retailer checks out a wholesale cart item of
quantity q, the wholesaler product loses exactly q stock in total, via the
update_stock_on_order trigger fired by the order_items insert; the client
does additionally issue an UPDATE carrying the doubly-decremented value
(it re-reads the already-decremented stock and subtracts q again), but
that UPDATE matches zero rows under the products UPDATE
row-level-security policy (auth.uid() = seller_id) because the row belongs
to the wholesaler, so it has no effect on stored stock. -/
theorem c4_wholesaler_stock_single_decrement (db : List Product)
    (retailerId freshId pid : String) (q : Nat) (p : Product)
    (hp : db.find? (fun r => r.id == pid) = some p)
    (hs : p.seller_id ≠ retailerId) :
    ((retailerHandleItem (update_product_stock db pid q) retailerId freshId pid q).find?
        (fun r => r.id == pid)).map Product.stock_quantity
      = some (p.stock_quantity - (q : Int)) ∧
    AppEff.updateStock pid (p.stock_quantity - (q : Int) - (q : Int))
        ∈ retailerHandleItemEffects (update_product_stock db pid q) retailerId freshId pid q := by
  have h1 : (update_product_stock db pid q).find? (fun r => r.id == pid)
      = some { p with stock_quantity := p.stock_quantity - (q : Int) } :=
    find?_map_update db pid
      (fun r => { r with stock_quantity := r.stock_quantity - (q : Int) }) (fun r => rfl) p hp
  constructor
  · simp only [retailerHandleItem, h1]
    have h2 : (clientUpdateStock (update_product_stock db pid q) retailerId pid
          (p.stock_quantity - (q : Int) - (q : Int))).find? (fun r => r.id == pid)
        = some { p with stock_quantity := p.stock_quantity - (q : Int) } :=
      find?_clientUpdate_preserve _ retailerId pid pid _
        { p with stock_quantity := p.stock_quantity - (q : Int) } h1 hs
    cases hex : (clientUpdateStock (update_product_stock db pid q) retailerId pid
        (p.stock_quantity - (q : Int) - (q : Int))).find?
        (fun r => r.seller_id == retailerId && r.name == p.name) with
    | none =>
      rw [find?_append_left_products h2]
      rfl
    | some existing =>
      have h3 : (clientUpdateStock (clientUpdateStock (update_product_stock db pid q)
            retailerId pid (p.stock_quantity - (q : Int) - (q : Int))) retailerId existing.id
            (existing.stock_quantity + (q : Int))).find? (fun r => r.id == pid)
          = some { p with stock_quantity := p.stock_quantity - (q : Int) } :=
        find?_clientUpdate_preserve _ retailerId existing.id pid _
          { p with stock_quantity := p.stock_quantity - (q : Int) } h2 hs
      rw [h3]
      rfl
  · simp only [retailerHandleItemEffects, h1]
    exact List.mem_cons_self _ _

/-- Witness for the amended C4: a one-product wholesaler table with stock
10; buying quantity 2 leaves the wholesaler row at stock 8, while the
client still issued the filtered-out write carrying 6. -/
theorem c4_wholesaler_stock_single_decrement_witness :
    ((retailerHandleItem (update_product_stock dbOne "p1" 2) "r1" "f1" "p1" 2).find?
        (fun r => r.id == "p1")).map Product.stock_quantity
      = some (wsProduct.stock_quantity - ((2 : Nat) : Int)) ∧
    AppEff.updateStock "p1" (wsProduct.stock_quantity - ((2 : Nat) : Int) - ((2 : Nat) : Int))
        ∈ retailerHandleItemEffects (update_product_stock dbOne "p1" 2) "r1" "f1" "p1" 2 :=
  c4_wholesaler_stock_single_decrement dbOne "r1" "f1" "p1" 2 wsProduct
    (by decide) (by decide)

/-- C3 counterexample: the claim says no application-code operation itself
writes a decremented stock_quantity, but the retailer checkout loop body
(RetailerCheckout.tsx lines 134-137) issues exactly such a write: after
the trigger has brought the wholesaler row from 10 to 8, the application
itself writes stock_quantity 6 = 8 - 2. -/
theorem c3_counterexample :
    AppEff.updateStock "p1" 6
        ∈ retailerHandleItemEffects (update_product_stock dbOne "p1" 2) "r1" "f1" "p1" 2 ∧
    ((update_product_stock dbOne "p1" 2).find? (fun r => r.id == "p1")).map
        Product.stock_quantity = some 8 ∧
    (6 : Int) < 8 := by
  decide

/-- C3 (amended): the update_stock_on_order trigger does decrement the
referenced product stock by exactly the inserted quantity on every
order_items insert, but application code is not write-free: the retailer
checkout loop itself issues an UPDATE carrying a decremented
stock_quantity (the re-read value minus the quantity). -/
theorem c3_stock_trigger_and_client_write (db : List Product)
    (pid retailerId freshId : String) (q : Nat) (p : Product)
    (h : db.find? (fun r => r.id == pid) = some p) :
    (update_product_stock db pid q).find? (fun r => r.id == pid)
        = some { p with stock_quantity := p.stock_quantity - (q : Int) } ∧
    AppEff.updateStock pid (p.stock_quantity - (q : Int) - (q : Int))
        ∈ retailerHandleItemEffects (update_product_stock db pid q) retailerId freshId pid q := by
  have h1 : (update_product_stock db pid q).find? (fun r => r.id == pid)
      = some { p with stock_quantity := p.stock_quantity - (q : Int) } :=
    find?_map_update db pid
      (fun r => { r with stock_quantity := r.stock_quantity - (q : Int) }) (fun r => rfl) p h
  refine ⟨h1, ?_⟩
  simp only [retailerHandleItemEffects, h1]
  exact List.mem_cons_self _ _

/-- Witness for the amended C3 on the one-product table. -/
theorem c3_stock_trigger_and_client_write_witness :
    (update_product_stock dbOne "p1" 2).find? (fun r => r.id == "p1")
        = some { wsProduct with stock_quantity := wsProduct.stock_quantity - ((2 : Nat) : Int) } ∧
    AppEff.updateStock "p1" (wsProduct.stock_quantity - ((2 : Nat) : Int) - ((2 : Nat) : Int))
        ∈ retailerHandleItemEffects (update_product_stock dbOne "p1" 2) "r1" "f1" "p1" 2 :=
  c3_stock_trigger_and_client_write dbOne "p1" "r1" "f1" 2 wsProduct (by decide)

theorem stockCheckAttempts_sublist (items : List CartItem) (stockOf : String → Option Int) :
    (stockCheckAttempts items stockOf).Sublist
      (items.map (fun it => CallDesc.readStock it.productId)) := by
  induction items with
  | nil => simp [stockCheckAttempts]
  | cons it rest ih =>
    simp only [stockCheckAttempts, List.map_cons]
    cases hso : stockOf it.productId with
    | none => exact List.Sublist.cons₂ _ (List.nil_sublist _)
    | some s =>
      by_cases hq : ((it.quantity : Int) ≤ s)
      · simp only [if_pos hq]
        exact List.Sublist.cons₂ _ ih
      · simp only [if_neg hq]
        exact List.Sublist.cons₂ _ (List.nil_sublist _)

theorem stockCheckAttempts_nodup (items : List CartItem) (stockOf : String → Option Int)
    (hnd : (items.map CartItem.productId).Nodup) :
    (stockCheckAttempts items stockOf).Nodup := by
  have hmap : (items.map (fun it => CallDesc.readStock it.productId)).Nodup := by
    have hcomp : items.map (fun it => CallDesc.readStock it.productId)
        = (items.map CartItem.productId).map CallDesc.readStock := by
      rw [List.map_map]
      rfl
    rw [hcomp]
    exact hnd.map (fun a b h => by injection h)
  exact hmap.sublist (stockCheckAttempts_sublist items stockOf)

theorem stockCheckAttempts_shape (items : List CartItem) (stockOf : String → Option Int) :
    ∀ d ∈ stockCheckAttempts items stockOf, ∃ pid, d = CallDesc.readStock pid := by
  intro d hd
  have hmem := (stockCheckAttempts_sublist items stockOf).subset hd
  simp only [List.mem_map] at hmem
  obtain ⟨it, _, rfl⟩ := hmem
  exact ⟨it.productId, rfl⟩

theorem sellerLoopAttempts_spec :
    ∀ (groups : List (String × List CartItem)) (k : Nat) (outs : List Bool),
      (sellerLoopAttempts k groups outs).Nodup ∧
      ∀ d ∈ sellerLoopAttempts k groups outs, ∃ j, k ≤ j ∧
        (d = CallDesc.insertOrderCall j ∨ d = CallDesc.insertOrderItemsCall j) := by
  intro groups
  induction groups with
  | nil =>
    intro k outs
    constructor
    · simp [sellerLoopAttempts]
    · intro d hd
      simp [sellerLoopAttempts] at hd
  | cons g rest ih =>
    intro k outs
    simp only [sellerLoopAttempts]
    cases hb1 : (nextOutcome outs).1 with
    | false =>
      simp only [hb1, Bool.false_eq_true, if_false]
      constructor
      · simp
      · intro d hd
        simp only [List.mem_singleton] at hd
        exact ⟨k, le_refl k, Or.inl hd⟩
    | true =>
      simp only [hb1, if_true]
      cases hb2 : (nextOutcome (nextOutcome outs).2).1 with
      | false =>
        simp only [hb2, Bool.false_eq_true, if_false]
        constructor
        · simp
        · intro d hd
          simp only [List.mem_cons, List.mem_singleton, List.not_mem_nil, or_false] at hd
          rcases hd with rfl | rfl
          · exact ⟨k, le_refl k, Or.inl rfl⟩
          · exact ⟨k, le_refl k, Or.inr rfl⟩
      | true =>
        simp only [hb2, if_true]
        obtain ⟨ihnd, ihbound⟩ := ih (k + 1) ((nextOutcome (nextOutcome outs).2).2)
        constructor
        · refine List.nodup_cons.mpr ⟨?_, List.nodup_cons.mpr ⟨?_, ihnd⟩⟩
          · intro hmem
            simp only [List.mem_cons] at hmem
            rcases hmem with h | h
            · exact absurd h (by simp)
            · obtain ⟨j, hj, hd⟩ := ihbound _ h
              rcases hd with hd | hd
              · have : k = j := by injection hd
                omega
              · exact absurd hd (by simp)
          · intro hmem
            obtain ⟨j, hj, hd⟩ := ihbound _ hmem
            rcases hd with hd | hd
            · exact absurd hd (by simp)
            · have : k = j := by injection hd
              omega
        · intro d hd
          simp only [List.mem_cons] at hd
          rcases hd with rfl | rfl | h
          · exact ⟨k, le_refl k, Or.inl rfl⟩
          · exact ⟨k, le_refl k, Or.inr rfl⟩
          · obtain ⟨j, hj, hd⟩ := ihbound _ h
            exact ⟨j, by omega, hd⟩

theorem placeOrderAttempts_nodup (userId : String) (items : List CartItem)
    (stockOf : String → Option Int) (outs : List Bool)
    (hnd : (items.map CartItem.productId).Nodup) :
    (placeOrderAttempts userId items stockOf outs).Nodup := by
  unfold placeOrderAttempts
  by_cases hc : stockCheckPasses items stockOf = true
  · rw [if_pos hc]
    obtain ⟨hlnd, hlbound⟩ := sellerLoopAttempts_spec (groupBySeller items) 0 outs
    rw [List.nodup_append]
    refine ⟨stockCheckAttempts_nodup items stockOf hnd, ?_, ?_⟩
    · rw [List.nodup_append]
      refine ⟨hlnd, ?_, ?_⟩
      · cases hcl : (runSellerLoop 0 (groupBySeller items) outs).2.1 <;> simp [hcl]
      · intro d hdl hdc
        obtain ⟨j, _, hd⟩ := hlbound _ hdl
        cases hcl : (runSellerLoop 0 (groupBySeller items) outs).2.1 with
        | false => simp [hcl] at hdc
        | true =>
          simp only [hcl, if_true, List.mem_singleton] at hdc
          rcases hd with rfl | rfl <;> simp at hdc
    · intro d hdread hdrest
      obtain ⟨pid, rfl⟩ := stockCheckAttempts_shape items stockOf d hdread
      rw [List.mem_append] at hdrest
      rcases hdrest with h | h
      · obtain ⟨j, _, hd⟩ := hlbound _ h
        rcases hd with hd | hd <;> exact absurd hd (by simp)
      · cases hcl : (runSellerLoop 0 (groupBySeller items) outs).2.1 with
        | false => simp [hcl] at h
        | true =>
          simp only [hcl, if_true, List.mem_singleton] at h
          exact absurd h (by simp)
  · rw [if_neg hc, List.append_nil]
    exact stockCheckAttempts_nodup items stockOf hnd

theorem placeOrderToasts_cover (userId : String) (items : List CartItem)
    (stockOf : String → Option Int) (outs : List Bool) :
    (runHandlePlaceOrder userId items stockOf outs).2 = true ∨
      placeOrderToasts userId items stockOf outs = ["Failed to place order"] ∨
      placeOrderToasts userId items stockOf outs = ["Insufficient stock"] := by
  unfold placeOrderToasts
  by_cases hc : stockCheckPasses items stockOf = true
  · rw [if_pos hc]
    cases hr : (runHandlePlaceOrder userId items stockOf outs).2 with
    | true => exact Or.inl rfl
    | false => exact Or.inr (Or.inl (by simp))
  · rw [if_neg hc]
    exact Or.inr (Or.inr rfl)

/-- C9 counterexample: fetchBookedSeats issues a backend read whose error
is neither checked nor surfaced: with the bookings read failing, the
component silently renders an empty booked-seat set and no toast, refuting
the claim that every backend-call error is surfaced as a toast. -/
theorem c9_counterexample :
    (fetchBookedSeats (Except.error "network error") (Except.ok [])).2 = [] ∧
    (fetchBookedSeats (Except.error "network error") (Except.ok [])).1 = [] := by
  decide

/-- C9 (amended): backend operations are attempted at most once per action
invocation (the attempted-call list of a checkout run has no duplicate
descriptor, so nothing is retried), and a run that does not succeed always
surfaces an error toast at the call site in the checkout path; however the
booked-seats fetch ignores read errors entirely and surfaces no toast. -/
theorem c9_toast_no_retry (userId : String) (items : List CartItem)
    (stockOf : String → Option Int) (outs : List Bool) (err : String)
    (seatsRes : Except String (List String))
    (hnd : (items.map CartItem.productId).Nodup) :
    (placeOrderAttempts userId items stockOf outs).Nodup ∧
    ((runHandlePlaceOrder userId items stockOf outs).2 = true ∨
      placeOrderToasts userId items stockOf outs = ["Failed to place order"] ∨
      placeOrderToasts userId items stockOf outs = ["Insufficient stock"]) ∧
    (fetchBookedSeats (Except.error err) seatsRes).2 = [] :=
  ⟨placeOrderAttempts_nodup userId items stockOf outs hnd,
   placeOrderToasts_cover userId items stockOf outs, rfl⟩

/-- Witness for the amended C9 on a concrete failing run. -/
theorem c9_toast_no_retry_witness :
    (placeOrderAttempts "u1" c2items ampleStock [false]).Nodup ∧
    ((runHandlePlaceOrder "u1" c2items ampleStock [false]).2 = true ∨
      placeOrderToasts "u1" c2items ampleStock [false] = ["Failed to place order"] ∨
      placeOrderToasts "u1" c2items ampleStock [false] = ["Insufficient stock"]) ∧
    (fetchBookedSeats (Except.error "network error") (Except.ok ["A1"])).2 = [] :=
  c9_toast_no_retry "u1" c2items ampleStock [false] "network error" (Except.ok ["A1"])
    (by decide)

/-- C10: two bookers who both fetched the booked-seat set while it was
empty can both book seat A1 of the same showtime: both handleBooking runs
succeed (handleBooking performs no conflict check and no read of existing
bookings), and the final state holds two confirmed bookings and two
booking_seats rows with the same showtime and the same seat label, since
the schema declares no uniqueness constraint over (showtime, seat). -/
theorem c10_duplicate_seat_booking :
    c10run1.isSome = true ∧
    c10run2.isSome = true ∧
    ((c10run2.getD emptyCinemaDB).booking_seats.filter
        (fun r => r.seat_label == seatA1)).length = 2 ∧
    ((c10run2.getD emptyCinemaDB).bookings.filter
        (fun b => b.showtime_id == "st1" && b.status == "confirmed")).length = 2 ∧
    ((c10run2.getD emptyCinemaDB).booking_seats.all
        (fun r => (c10run2.getD emptyCinemaDB).bookings.any
            (fun b => b.id == r.booking_id && b.showtime_id == "st1"))) = true := by
  decide

end HubSpec
